import Mathlib

/-!
Shallow embedding of `whisper_transcribe.py` (batch audio/video transcription
orchestrator).  Pure helpers of the script become Lean functions; external
effects (media probing, the engine, the filesystem, wall-clock time) are passed
in as explicit per-file environment values.  Python floats are modelled as
rationals, Python `str` as Lean `String`, a Python value of type `str | None`
as `Option String`, and fallible calls as `Except String α`.
-/

/-- Python `f"{n:02d}"`: decimal representation left-padded with `0` to width 2. -/
def pad2 (n : Nat) : String :=
  if n < 10 then "0" ++ Nat.repr n else Nat.repr n

/-- Python `str.split(sep)` for a one-character separator, on explicit char lists.
`splitChar c l` never returns `[]` (splitting the empty string gives `[""]`). -/
def splitChar (c : Char) : List Char → List (List Char)
  | [] => [[]]
  | x :: xs =>
    match splitChar c xs with
    | [] => [[x]]
    | y :: ys => if x = c then [] :: y :: ys else (x :: y) :: ys

/-- Value of a decimal digit character, `none` for a non-digit. -/
def charDigit (c : Char) : Option Nat :=
  if '0' ≤ c ∧ c ≤ '9' then some (c.toNat - '0'.toNat) else none

/-- Accumulating helper for `pyInt`. -/
def digitsAux : List Char → Nat → Option Nat
  | [], acc => some acc
  | c :: cs, acc =>
    match charDigit c with
    | some d => digitsAux cs (acc * 10 + d)
    | none => none

/-- Python `int(s)` on the (non-negative, digit-only) strings produced by the
script's own formatters; `none` models the `ValueError` raised on any other
input. -/
def pyInt (l : List Char) : Option Nat :=
  if l = [] then none else digitsAux l 0

/-- Python `str.isspace`-style whitespace test restricted to the ASCII
whitespace characters, which is all `str.strip()` can meet on the strings the
script manipulates. -/
def pyIsSpace (c : Char) : Bool :=
  c == ' ' || c == '\t' || c == '\n' || c == '\r' || c == '\x0b' || c == '\x0c'

/-- Python `str.strip()` on a char list: drop whitespace from both ends. -/
def stripL (l : List Char) : List Char :=
  ((l.dropWhile pyIsSpace).reverse.dropWhile pyIsSpace).reverse

/-- Python `str.strip()`. -/
def pyStrip (s : String) : String :=
  String.mk (stripL s.data)

/-- Python `sep.join(xs)`. -/
def joinSep (sep : String) : List String → String
  | [] => ""
  | [x] => x
  | x :: y :: xs => x ++ sep ++ joinSep sep (y :: xs)

/-- Python `str.lower()` (ASCII case folding, which covers the file
extensions the script lowercases). -/
def lowerStr (s : String) : String :=
  String.mk (s.data.map Char.toLower)

/-- Python `os.path.splitext` on a basename: split off the extension at the
last dot, unless every character before that dot is itself a dot (so dotfiles
such as `.bashrc` have no extension). -/
def splitext (name : String) : String × String :=
  let r := name.data.reverse
  let after := r.takeWhile (fun c => c ≠ '.')
  match r.dropWhile (fun c => c ≠ '.') with
  | [] => (name, "")
  | _ :: before_rev =>
    if before_rev.all (fun c => c = '.') then (name, "")
    else (String.mk before_rev.reverse, String.mk ('.' :: after.reverse))

/-- Python `os.path.splitext(path)[1].lower()` applied to a basename. -/
def extOf (name : String) : String :=
  lowerStr (splitext name).2

/-- Floor of a rational as an integer (`Int.fdiv` is floor division). -/
def ratFloorInt (q : ℚ) : Int :=
  Int.fdiv q.num (q.den : Int)

/-- Python `int(x)` for the non-negative floats the script truncates
(truncation and floor agree on non-negative values). -/
def ratToNat (q : ℚ) : Nat :=
  (ratFloorInt q).toNat

/-- Python `round(q)` at integer precision: round half to even. -/
def roundHalfEven (q : ℚ) : Int :=
  let f := ratFloorInt q
  let r := q - (f : ℚ)
  if r < 1 / 2 then f
  else if 1 / 2 < (r : ℚ) then f + 1
  else if f % 2 = 0 then f else f + 1

/-- Python `round(q, 2)`. -/
def round2 (q : ℚ) : ℚ :=
  (roundHalfEven (q * 100) : ℚ) / 100

/-- Python `f"{q:.2f}"`: fixed two decimal places, round half to even. -/
def fmt2 (q : ℚ) : String :=
  let n := roundHalfEven (q * 100)
  let m := n.natAbs
  (if n < 0 then "-" else "") ++ Nat.repr (m / 100) ++ "." ++ pad2 (m % 100)

/-- Python `str(x)` for the two-decimal floats the script prints (the script
only stringifies values already rounded to two places, whose float repr is the
decimal with trailing zeros dropped but at least one fractional digit). -/
def ratStr (q : ℚ) : String :=
  let n := roundHalfEven (q * 100)
  let m := n.natAbs
  let sign := if n < 0 then "-" else ""
  if m % 100 = 0 then sign ++ Nat.repr (m / 100) ++ ".0"
  else if m % 10 = 0 then sign ++ Nat.repr (m / 100) ++ "." ++ Nat.repr (m % 100 / 10)
  else sign ++ Nat.repr (m / 100) ++ "." ++ pad2 (m % 100)

/-- Python `str(b)` for a bool. -/
def pyBoolStr (b : Bool) : String :=
  if b then "True" else "False"

/-- Python `f"{v}"` for a `str | None` value. -/
def pyOptStr : Option String → String
  | none => "None"
  | some s => s

/-- The `SCRIPT_VERSION` constant of the source. -/
def SCRIPT_VERSION : String := "v24"

/-- The video extensions the source checks (`.mp4 .avi .mov .mkv`). -/
def videoExts : List String := [".mp4", ".avi", ".mov", ".mkv"]

/-- The audio extensions the source checks (`.wav .mp3 .ogg .flac`). -/
def audioExts : List String := [".wav", ".mp3", ".ogg", ".flac"]

/-- Source function `suggest_model`: recommended Whisper model from available
RAM (GB) and CUDA availability. -/
def suggest_model (ram_gb : ℚ) (use_cuda : Bool) : String :=
  if use_cuda then "large"
  else if ram_gb ≥ 6 then "small"
  else if ram_gb ≥ 4 then "base"
  else "tiny"

/-- Source function `duration_to_seconds`: parse an `MM:SS` string into
seconds; any parse failure (wrong number of parts, non-digits) is caught and
yields `0`. -/
def duration_to_seconds (s : String) : Nat :=
  match splitChar ':' s.data with
  | [m, sec] =>
    match pyInt m, pyInt sec with
    | some mm, some ss => mm * 60 + ss
    | _, _ => 0
  | _ => 0

/-- Source function `format_seconds`: `HH:MM:SS` when at least one hour,
`MM:SS` otherwise.  The source first truncates its float argument with
`int(seconds)`; this is the function applied after that truncation. -/
def format_seconds (total_seconds : Nat) : String :=
  let hours := total_seconds / 3600
  let remainder := total_seconds % 3600
  let minutes := remainder / 60
  let seconds := remainder % 60
  if hours > 0 then pad2 hours ++ ":" ++ pad2 minutes ++ ":" ++ pad2 seconds
  else pad2 minutes ++ ":" ++ pad2 seconds

/-- Wrapper applying `format_seconds` to a float argument, truncating first
(`total_seconds = int(seconds)` in the source). -/
def format_secondsF (seconds : ℚ) : String :=
  format_seconds (ratToNat seconds)

/-- Source function `get_media_duration`.  `clip` is the external
moviepy probe for this path: `Except.ok d` means the clip was opened and has
duration `d` seconds, `Except.error e` models any exception while opening or
reading it.  The whole body is wrapped in `try/except`, so the function is
total: it returns the marker string `"ошибка"` on probe failure and never
raises past its boundary. -/
def get_media_duration (file_name : String) (clip : Except String ℚ) : String :=
  let ext := extOf file_name
  if ext ∈ videoExts ∨ ext ∈ audioExts then
    match clip with
    | Except.error _ => "ошибка"
    | Except.ok d =>
      let total_seconds := ratToNat d
      pad2 (total_seconds / 60) ++ ":" ++ pad2 (total_seconds % 60)
  else "не определено"

/-- Source function `read_hotwords`.  `file_lines` is the sidecar file's
lines (`none` models `FileNotFoundError`).  Returns the value Python returns
(`Option String`: `none` is Python `None`) paired with whether the
file-not-found warning was printed. -/
def read_hotwords (file_lines : Option (List String)) : Option String × Bool :=
  match file_lines with
  | none => (some "", true)
  | some raw =>
    let lines := (raw.map pyStrip).filter (fun l => l ≠ "")
    if lines = [] then (none, false) else (some (joinSep ", " lines), false)

/-- The segment join of `transcribe_file` (source line 207):
`" ".join(segment.text.strip() for segment in segments).strip()`. -/
def joinSegments (segs : List String) : String :=
  pyStrip (joinSep " " (segs.map pyStrip))

/-- Modelled from the spec's words (for comparison with `joinSegments`):
"Concatenate the engine's returned segment texts, in segment order, trimming
each segment and joining with a single space". -/
def transcript_spec_join (segs : List String) : String :=
  joinSep " " (segs.map pyStrip)

/-- The speed computation of the main loop (source lines 424-430):
`media_duration_sec / elapsed_time`, with the `ZeroDivisionError` handler
yielding `0` exactly when the elapsed time is zero. -/
def compute_speed (media_duration_sec : ℚ) (elapsed_time : ℚ) : ℚ :=
  if elapsed_time = 0 then 0 else media_duration_sec / elapsed_time


/-- A success record of the main loop (`processed_files_info` entries). -/
structure SuccessInfo where
  name : String
  path : String
  duration : String
  media_duration_sec : Nat
  size_mb : ℚ
  elapsed_time_sec : ℚ
  elapsed_time_str : String
  speed_x : ℚ

deriving instance DecidableEq for SuccessInfo

/-- A failure record of the main loop (`failed_info` entries). -/
structure FailureInfo where
  name : String
  path : String
  reason : String

deriving instance DecidableEq for FailureInfo

/-- One `WhisperModel(model_size, device=...)` construction together with the
hotwords later passed to `model.transcribe`: the engine configuration actually
used for one file. -/
structure EngineInvocation where
  model_size : String
  device : String
  hotwords : Option String

deriving instance DecidableEq for EngineInvocation

/-- The external world's behaviour for one file of the batch: everything the
loop body observes that is not computed by the script itself. -/
structure FileEnv where
  /-- Path of the source file, `media_file` (`input_folder/name`). -/
  path : String
  /-- Basename of the file, `os.path.basename(media_file)`. -/
  name : String
  /-- Outcome of opening the moviepy clip and reading `clip.duration`
  (seconds, a float); `Except.error` models any exception in the probe. -/
  clip : Except String ℚ
  /-- Whether `shutil.copy` into the output folder succeeds (its failure is
  caught and only logged). -/
  copy_ok : Bool
  /-- Result of `has_cuda()` at the moment `transcribe_file` runs for this
  file (source line 193 re-probes CUDA inside every call). -/
  cuda : Bool
  /-- Result of extracting the audio track, for video inputs. -/
  extract_ok : Except String Unit
  /-- The engine call: the returned segment texts, or the exception it
  raises. -/
  engine : Except String (List String)
  /-- The measured wall-clock time `round(end_time - start_time, 2)`. -/
  elapsed : ℚ
  /-- Size `os.path.getsize(media_file)` in bytes. -/
  size_bytes : Nat
  /-- Outcome of the fallible steps after transcription inside the same
  `try` (transcript write, `os.path.getsize`). -/
  write_ok : Except String Unit

/-- Source function `transcribe_file` (lines 169-213).  Returns the temporary
audio files created and never removed (the cleanup at lines 208-210 is
commented out), the engine configurations used (`WhisperModel` construction,
with the device re-computed from `has_cuda()` at call time), and either the
joined transcription with the elapsed time or the exception message. -/
def transcribe_file (hotwords : Option String) (env : FileEnv) (model_size : String) :
    List String × List EngineInvocation × Except String (String × ℚ) :=
  let ext := extOf env.name
  if ext ∈ videoExts then
    match env.extract_ok with
    | Except.error e => ([], [], Except.error e)
    | Except.ok _ =>
      let file_root := (splitext env.name).1
      let audio_tmp := file_root ++ "_temp_audio.wav"
      let inv : EngineInvocation :=
        ⟨model_size, if env.cuda then "cuda" else "cpu", hotwords⟩
      match env.engine with
      | Except.error e => ([audio_tmp], [inv], Except.error e)
      | Except.ok segs => ([audio_tmp], [inv], Except.ok (joinSegments segs, env.elapsed))
  else if ext ∈ audioExts then
    let inv : EngineInvocation :=
      ⟨model_size, if env.cuda then "cuda" else "cpu", hotwords⟩
    match env.engine with
    | Except.error e => ([], [inv], Except.error e)
    | Except.ok segs => ([], [inv], Except.ok (joinSegments segs, env.elapsed))
  else ([], [], Except.error ("Неподдерживаемый формат файла: " ++ env.path))

/-- Accumulated state of the main loop: the two outcome lists, every engine
configuration used so far, and the temporary audio files left on disk. -/
structure RunAcc where
  processed : List SuccessInfo
  failed : List FailureInfo
  invocations : List EngineInvocation
  temp_left : List String

/-- The empty accumulator the run starts from. -/
def RunAcc.init : RunAcc := ⟨[], [], [], []⟩

/-- The body of the main processing loop (source lines 391-447) for one file:
duration probe, copy (non-fatal), duration gate, transcription with the
per-file `try/except`, metrics, and the append to exactly one of the two
outcome lists. -/
def process_one (hotwords : Option String) (chosen_model : String)
    (acc : RunAcc) (env : FileEnv) : RunAcc :=
  let file_name := env.name
  let duration := get_media_duration env.name env.clip
  if duration = "ошибка" then
    { acc with failed :=
        acc.failed ++ [⟨file_name, env.path, "Ошибка получения длительности"⟩] }
  else
    match transcribe_file hotwords env chosen_model with
    | (tmp, invs, Except.error e) =>
      { acc with
          failed := acc.failed ++ [⟨file_name, env.path, e⟩],
          invocations := acc.invocations ++ invs,
          temp_left := acc.temp_left ++ tmp }
    | (tmp, invs, Except.ok res) =>
      match env.write_ok with
      | Except.error e =>
        { acc with
            failed := acc.failed ++ [⟨file_name, env.path, e⟩],
            invocations := acc.invocations ++ invs,
            temp_left := acc.temp_left ++ tmp }
      | Except.ok _ =>
        let elapsed_time := res.2
        let media_duration_sec := duration_to_seconds duration
        let speed := compute_speed (media_duration_sec : ℚ) elapsed_time
        { acc with
            processed := acc.processed ++
              [⟨file_name, env.path, duration, media_duration_sec,
                round2 ((env.size_bytes : ℚ) / 1048576), elapsed_time,
                format_secondsF elapsed_time, round2 speed⟩],
            invocations := acc.invocations ++ invs,
            temp_left := acc.temp_left ++ tmp }

/-- The whole per-file loop: fold `process_one` over the inventory with the
run-level hotwords and chosen model fixed before the loop starts. -/
def runBatch (hotwords : Option String) (chosen_model : String)
    (envs : List FileEnv) : RunAcc :=
  envs.foldl (process_one hotwords chosen_model) RunAcc.init

/-- The values `get_system_info` reads from the environment. -/
structure SystemInfo where
  os : String
  python_version : String
  cuda_available : Bool
  ram_available_gb : ℚ

/-- The values `get_library_versions` reads from the environment
(version string, `"not installed"` or `"unknown"`), in the source's fixed
insertion order. -/
structure LibVersions where
  faster_whisper : String
  whisper : String
  torch : String
  moviepy : String
  winotify : String
  argparse : String
  psutil : String

/-- The `"-" * 50 + "\n"` separator written after every per-file block. -/
def sepLine : String := String.mk (List.replicate 50 '-') ++ "\n"

/-- The writes `write_info_file` performs for one success record. -/
def successChunks (i : SuccessInfo) : List String :=
  [ "📌 Файл: " ++ (i.name ++ "\n"),
    "Путь: " ++ (i.path ++ "\n"),
    "Размер файла: " ++ (ratStr i.size_mb ++ " MB\n"),
    "Длительность: " ++ (i.duration ++ "\n"),
    "Время обработки: " ++ (fmt2 i.elapsed_time_sec ++ (" сек (" ++ (i.elapsed_time_str ++ ")\n"))),
    "Скорость расшифровки: " ++ (fmt2 i.speed_x ++ "x\n"),
    sepLine ]

/-- The writes `write_info_file` performs for one failure record. -/
def failChunks (i : FailureInfo) : List String :=
  [ "📌 Файл: " ++ (i.name ++ "\n"),
    "Путь: " ++ (i.path ++ "\n"),
    "Ошибка: " ++ (i.reason ++ "\n"),
    sepLine ]

/-- Total media duration over the success records (`sum of media_duration_sec`). -/
def totalMedia (processed_info : List SuccessInfo) : Nat :=
  (processed_info.map SuccessInfo.media_duration_sec).sum

/-- Total processing time over the success records (`sum of elapsed_time_sec`). -/
def totalElapsed (processed_info : List SuccessInfo) : ℚ :=
  (processed_info.map SuccessInfo.elapsed_time_sec).sum

/-- Average decoding speed, guarded against a zero denominator. -/
def averageSpeed (processed_info : List SuccessInfo) : ℚ :=
  if totalElapsed processed_info > 0 then
    (totalMedia processed_info : ℚ) / totalElapsed processed_info
  else 0

/-- The header the source writes (only) in front of a non-empty failure list. -/
def failHeader : String := "=== ❌ Файлы с ошибками ==========\n"

/-- The header of the success section, written unconditionally. -/
def successHeader : String := "=== 📁 Успешно обработанные файлы ==========\n"

/-- The neutral line written in the statistics section when no file succeeded. -/
def zeroProcessedLine : String := "Файлов успешно обработано: 0\n"

/-- Source function `write_info_file` (lines 254-322), as the ordered sequence
of strings written to `_transcription.info` (one list element per `f.write`
call).  The system and library information the source reads itself is passed
in (`si`, `lv`) since it comes from the environment. -/
def write_info_file (hotwords : Option String) (processed_info : List SuccessInfo)
    (failed_info : List FailureInfo) (model_size : String) (total_time_sec : ℚ)
    (si : SystemInfo) (lv : LibVersions) : List String :=
  [ "=== 🧾 Версия скрипта ==========\n",
    SCRIPT_VERSION ++ "\n\n",
    successHeader ]
  ++ processed_info.flatMap successChunks
  ++ (if failed_info = [] then []
      else failHeader :: failed_info.flatMap failChunks)
  ++ [ "\n\n=== ⚙️ Параметры транскрибации ==========\n",
       "Библиотека: faster-whisper (v" ++ (lv.faster_whisper ++ ")\n"),
       "Модель: " ++ (model_size ++ "\n"),
       "language: ru\n",
       "log_progress: True\n",
       "hotwords: " ++ (pyOptStr hotwords ++ "\n"),
       "\n\n=== 💻 Системная информация ==========\n",
       "os: " ++ (si.os ++ "\n"),
       "python_version: " ++ (si.python_version ++ "\n"),
       "cuda_available: " ++ (pyBoolStr si.cuda_available ++ "\n"),
       "ram_available_gb: " ++ (ratStr si.ram_available_gb ++ "\n"),
       "\n\n=== 🧠 Библиотеки и их версии ==========\n",
       "faster-whisper: " ++ (lv.faster_whisper ++ "\n"),
       "whisper: " ++ (lv.whisper ++ "\n"),
       "torch: " ++ (lv.torch ++ "\n"),
       "moviepy: " ++ (lv.moviepy ++ "\n"),
       "winotify: " ++ (lv.winotify ++ "\n"),
       "argparse: " ++ (lv.argparse ++ "\n"),
       "psutil: " ++ (lv.psutil ++ "\n"),
       "\n\n=== 📊 Общая статистика ==========\n" ]
  ++ (if processed_info = [] then [zeroProcessedLine]
      else
        [ "Общая длительность медиа: " ++ (format_seconds (totalMedia processed_info) ++ "\n"),
          "Общее время обработки: " ++ (fmt2 (totalElapsed processed_info) ++ (" сек ("
            ++ (format_secondsF (totalElapsed processed_info) ++ ")\n"))),
          "Средняя скорость расшифровки: " ++ (fmt2 (averageSpeed processed_info) ++ "x\n\n") ])
  ++ [ "=== ℹ️ Пояснение к скорости расшифровки ==========\n",
       "Скорость расшифровки показывает, во сколько раз модель обработала файл быстрее реального времени.\n",
       "Пример: 6.5x — файл длиной 60 секунд обработан за ~9 секунд.\n",
       "Чем выше значение, тем эффективнее работает модель.\n",
       "\nОбщее время работы скрипта: " ++ (fmt2 total_time_sec ++ (" сек ("
         ++ (format_secondsF total_time_sec ++ ")\n"))) ]

/-! ### Helper lemmas -/

theorem str_data_append (a b : String) : (a ++ b).data = a.data ++ b.data := rfl

theorem process_one_outcome_count (hw : Option String) (m : String) (acc : RunAcc)
    (env : FileEnv) :
    (process_one hw m acc env).processed.length + (process_one hw m acc env).failed.length
      = acc.processed.length + acc.failed.length + 1 := by
  rcases htf : transcribe_file hw env m with ⟨tmp, invs, res⟩
  by_cases hd : get_media_duration env.name env.clip = "ошибка"
  · simp [process_one, hd]
    omega
  · rcases res with e | r
    · simp [process_one, hd, htf]
      omega
    · rcases hwr : env.write_ok with e | u <;>
        simp [process_one, hd, htf, hwr] <;> omega

theorem foldl_outcome_count (hw : Option String) (m : String) (envs : List FileEnv) :
    ∀ acc : RunAcc,
      (envs.foldl (process_one hw m) acc).processed.length
        + (envs.foldl (process_one hw m) acc).failed.length
      = acc.processed.length + acc.failed.length + envs.length := by
  induction envs with
  | nil => intro acc; simp
  | cons e es ih =>
    intro acc
    simp only [List.foldl_cons, List.length_cons]
    rw [ih, process_one_outcome_count]
    omega

/-- C1: every discovered file yields exactly one outcome — for any run
configuration and any inventory, the number of success records plus the number
of failure records produced by the processing loop equals the number of files,
and in particular the fold runs the loop body for every file (no file's
failure aborts the batch: the loop is a total fold over the whole list). -/
theorem outcome_count_eq_inventory (hw : Option String) (m : String)
    (envs : List FileEnv) :
    (runBatch hw m envs).processed.length + (runBatch hw m envs).failed.length
      = envs.length := by
  unfold runBatch
  rw [foldl_outcome_count]
  simp [RunAcc.init]

/-- C7: the speed computation of the main loop is safe — it is non-negative
for non-negative media duration and elapsed time, it is exactly `0` when the
elapsed time is `0` (the `ZeroDivisionError` handler), and otherwise it is
exactly `media_duration_sec / elapsed_time`.  (The success record stores
`round(speed, 2)` of this value.) -/
theorem speed_ratio_safe (m e : ℚ) (hm : 0 ≤ m) (he : 0 ≤ e) :
    0 ≤ compute_speed m e
  ∧ (e = 0 → compute_speed m e = 0)
  ∧ (e ≠ 0 → compute_speed m e = m / e) := by
  refine ⟨?_, ?_, ?_⟩
  · unfold compute_speed
    split
    · exact le_refl 0
    · exact div_nonneg hm he
  · intro h; simp [compute_speed, h]
  · intro h; simp [compute_speed, h]

theorem speed_ratio_safe_witness :
    (0 ≤ compute_speed 60 10
      ∧ ((10 : ℚ) = 0 → compute_speed 60 10 = 0)
      ∧ ((10 : ℚ) ≠ 0 → compute_speed 60 10 = 60 / 10))
  ∧ compute_speed 60 0 = 0 ∧ compute_speed 60 10 = 6 :=
  ⟨speed_ratio_safe 60 10 (by norm_num) (by norm_num),
   by norm_num [compute_speed], by norm_num [compute_speed]⟩

/-- C10: `suggest_model` is a pure function of available RAM and accelerator
presence with exactly the spec's thresholds: `large` whenever CUDA is present,
else `small` for RAM ≥ 6 GB, else `base` for RAM ≥ 4 GB, else `tiny`. -/
theorem suggest_model_thresholds (ram_gb : ℚ) (use_cuda : Bool) :
    (use_cuda = true → suggest_model ram_gb use_cuda = "large")
  ∧ (use_cuda = false → 6 ≤ ram_gb → suggest_model ram_gb use_cuda = "small")
  ∧ (use_cuda = false → ram_gb < 6 → 4 ≤ ram_gb →
      suggest_model ram_gb use_cuda = "base")
  ∧ (use_cuda = false → ram_gb < 4 → suggest_model ram_gb use_cuda = "tiny") := by
  refine ⟨?_, ?_, ?_, ?_⟩
  · intro h; simp [suggest_model, h]
  · intro h h6; simp [suggest_model, h, h6]
  · intro h h6 h4; simp [suggest_model, h, not_le.mpr h6, h4]
  · intro h h4
    have h6 : ¬(6 : ℚ) ≤ ram_gb := not_le.mpr (lt_trans h4 (by norm_num))
    simp [suggest_model, h, h6, not_le.mpr h4]

theorem suggest_model_thresholds_witness :
    suggest_model 7 false = "small" :=
  (suggest_model_thresholds 7 false).2.1 rfl (by norm_num)

/-- A video file whose probe, extraction, engine call and write all succeed. -/
def envVideoA : FileEnv :=
  ⟨"_input/a.mp4", "a.mp4", Except.ok 60, true, false, Except.ok (),
   Except.ok ["hi"], 10, 100, Except.ok ()⟩

/-- A second such video file. -/
def envVideoB : FileEnv :=
  ⟨"_input/b.mp4", "b.mp4", Except.ok 60, true, false, Except.ok (),
   Except.ok ["hi"], 10, 100, Except.ok ()⟩

/-- C5 (code defect): the per-file temporary audio files are NOT released —
the removal at source lines 208-210 is commented out (marked `TODO`), so after
a batch of two successfully processed video files both extracted
`*_temp_audio.wav` files are still on disk, i.e. temporary resources grow
linearly with the number of video files instead of being bounded by one
file's worth. -/
theorem temp_audio_files_accumulate :
    (runBatch none "base" [envVideoA, envVideoB]).temp_left
      = ["a_temp_audio.wav", "b_temp_audio.wav"]
  ∧ (runBatch none "base" [envVideoA, envVideoB]).temp_left.length = 2
  ∧ (runBatch none "base" [envVideoA, envVideoB]).processed.length = 2 := by
  refine ⟨by decide, by decide, by decide⟩

/-- C6: when the duration probe fails for a file, the loop body appends
exactly one failure record with the duration-probe reason and changes nothing
else (in particular it records no engine invocation: the engine is never
loaded or called for that file), the batch continues with the remaining files
from that state, and the probe itself is a total function that returns a
marker string rather than raising. -/
theorem duration_gate_failure_isolated (hw : Option String) (m : String)
    (acc : RunAcc) (env : FileEnv) (rest : List FileEnv)
    (h : get_media_duration env.name env.clip = "ошибка") :
    process_one hw m acc env
      = { acc with failed :=
            acc.failed ++ [⟨env.name, env.path, "Ошибка получения длительности"⟩] }
  ∧ (process_one hw m acc env).invocations = acc.invocations
  ∧ List.foldl (process_one hw m) acc (env :: rest)
      = List.foldl (process_one hw m)
          { acc with failed :=
              acc.failed ++ [⟨env.name, env.path, "Ошибка получения длительности"⟩] } rest
  ∧ (∀ (name2 msg : String),
      get_media_duration name2 (Except.error msg) = "ошибка"
        ∨ get_media_duration name2 (Except.error msg) = "не определено") := by
  have h1 : process_one hw m acc env
      = { acc with failed :=
            acc.failed ++ [⟨env.name, env.path, "Ошибка получения длительности"⟩] } := by
    simp [process_one, h]
  refine ⟨h1, by rw [h1], by simp only [List.foldl_cons, h1], ?_⟩
  intro name2 msg
  by_cases hs : extOf name2 ∈ videoExts ∨ extOf name2 ∈ audioExts
  · exact Or.inl (by simp [get_media_duration, hs])
  · exact Or.inr (by simp [get_media_duration, hs])

/-- A file whose duration probe fails (a corrupted `.wav`). -/
def envDurFail : FileEnv :=
  ⟨"_input/bad.wav", "bad.wav", Except.error "corrupt", true, false, Except.ok (),
   Except.ok [], 0, 10, Except.ok ()⟩

theorem duration_gate_failure_witness :
    process_one none "base" RunAcc.init envDurFail
      = { RunAcc.init with failed :=
            RunAcc.init.failed
              ++ [⟨envDurFail.name, envDurFail.path, "Ошибка получения длительности"⟩] }
  ∧ (process_one none "base" RunAcc.init envDurFail).invocations
      = RunAcc.init.invocations
  ∧ List.foldl (process_one none "base") RunAcc.init [envDurFail]
      = List.foldl (process_one none "base")
          { RunAcc.init with failed :=
              RunAcc.init.failed
                ++ [⟨envDurFail.name, envDurFail.path, "Ошибка получения длительности"⟩] } []
  ∧ (∀ (name2 msg : String),
      get_media_duration name2 (Except.error msg) = "ошибка"
        ∨ get_media_duration name2 (Except.error msg) = "не определено") :=
  duration_gate_failure_isolated none "base" RunAcc.init envDurFail [] (by decide)

/-- An audio file processed while the CUDA probe answers `true`. -/
def envCudaOn : FileEnv :=
  ⟨"_input/a.mp3", "a.mp3", Except.ok 60, true, true, Except.ok (),
   Except.ok ["hi"], 10, 100, Except.ok ()⟩

/-- An audio file processed while the CUDA probe answers `false`. -/
def envCudaOff : FileEnv :=
  ⟨"_input/b.mp3", "b.mp3", Except.ok 60, true, false, Except.ok (),
   Except.ok ["hi"], 10, 100, Except.ok ()⟩

/-- C4 counterexample: in a single run over two files, the two engine
invocations can use different compute devices, because `transcribe_file`
re-evaluates `has_cuda()` for every file (source line 193) instead of using a
device decided once before the loop; so the configuration triple is not fixed
per run as claimed. -/
theorem device_reprobed_per_file_cex :
    (runBatch (some "") "base" [envCudaOn, envCudaOff]).invocations.map
        EngineInvocation.device
      = ["cuda", "cpu"]
  ∧ ("cuda" : String) ≠ "cpu" := by
  refine ⟨by decide, by decide⟩

theorem transcribe_file_inv_mem (hw : Option String) (env : FileEnv) (m : String) :
    ∀ inv ∈ (transcribe_file hw env m).2.1,
      inv.model_size = m ∧ inv.hotwords = hw
        ∧ inv.device = (if env.cuda then "cuda" else "cpu") := by
  intro inv hinv
  rcases env with ⟨path, name, clip, copy_ok, cuda, extract_ok, engine, elapsed,
    size_bytes, write_ok⟩
  simp only [transcribe_file] at hinv
  by_cases hv : extOf name ∈ videoExts
  · rw [if_pos hv] at hinv
    cases extract_ok with
    | error e => simp at hinv
    | ok u =>
      cases engine with
      | error e =>
        simp at hinv
        subst hinv
        exact ⟨rfl, rfl, rfl⟩
      | ok segs =>
        simp at hinv
        subst hinv
        exact ⟨rfl, rfl, rfl⟩
  · rw [if_neg hv] at hinv
    by_cases ha : extOf name ∈ audioExts
    · rw [if_pos ha] at hinv
      cases engine with
      | error e =>
        simp at hinv
        subst hinv
        exact ⟨rfl, rfl, rfl⟩
      | ok segs =>
        simp at hinv
        subst hinv
        exact ⟨rfl, rfl, rfl⟩
    · rw [if_neg ha] at hinv
      simp at hinv

theorem process_one_inv_mem (hw : Option String) (m : String) (acc : RunAcc)
    (env : FileEnv) :
    ∀ inv ∈ (process_one hw m acc env).invocations,
      inv ∈ acc.invocations ∨ inv ∈ (transcribe_file hw env m).2.1 := by
  intro inv hinv
  rcases htf : transcribe_file hw env m with ⟨tmp, invs, res⟩
  by_cases hd : get_media_duration env.name env.clip = "ошибка"
  · simp [process_one, hd] at hinv
    exact Or.inl hinv
  · rcases res with e | r
    · simp [process_one, hd, htf] at hinv
      rcases hinv with h | h
      · exact Or.inl h
      · exact Or.inr h
    · rcases hwr : env.write_ok with e | u <;>
        simp [process_one, hd, htf, hwr] at hinv <;>
        rcases hinv with h | h
      · exact Or.inl h
      · exact Or.inr h
      · exact Or.inl h
      · exact Or.inr h

theorem foldl_inv_mem (hw : Option String) (m : String) (c : Bool)
    (envs : List FileEnv) :
    ∀ acc : RunAcc,
      (∀ e ∈ envs, e.cuda = c) →
      (∀ inv ∈ acc.invocations,
        inv.model_size = m ∧ inv.hotwords = hw
          ∧ inv.device = (if c then "cuda" else "cpu")) →
      ∀ inv ∈ (envs.foldl (process_one hw m) acc).invocations,
        inv.model_size = m ∧ inv.hotwords = hw
          ∧ inv.device = (if c then "cuda" else "cpu") := by
  induction envs with
  | nil => intro acc _ hacc; simpa using hacc
  | cons e es ih =>
    intro acc hc hacc
    simp only [List.foldl_cons]
    refine ih _ (fun x hx => hc x (List.mem_cons_of_mem _ hx)) ?_
    intro inv hinv
    rcases process_one_inv_mem hw m acc e inv hinv with h | h
    · exact hacc inv h
    · have he : e.cuda = c := hc e (List.mem_cons_self _ _)
      have := transcribe_file_inv_mem hw e m inv h
      rw [he] at this
      exact this

/-- C4 (amended): the model tier and the hotwords value used for every engine
invocation of a run are exactly the run-level `chosen_model` and `hotwords`
decided once before the loop; the compute device, however, is re-computed from
the CUDA probe inside each per-file `transcribe_file` call, so all files of a
run share one device only under the assumption that the probe answers the same
for every file. -/
theorem tier_hotwords_fixed_device_per_file (hw : Option String) (m : String)
    (envs : List FileEnv) (c : Bool) (hc : ∀ e ∈ envs, e.cuda = c) :
    ∀ inv ∈ (runBatch hw m envs).invocations,
      inv.model_size = m ∧ inv.hotwords = hw
        ∧ inv.device = (if c then "cuda" else "cpu") := by
  unfold runBatch
  exact foldl_inv_mem hw m c envs RunAcc.init hc (by simp [RunAcc.init])

theorem tier_hotwords_fixed_device_witness :
    EngineInvocation.model_size ⟨"base", "cpu", some ""⟩ = "base"
  ∧ EngineInvocation.hotwords ⟨"base", "cpu", some ""⟩ = some ""
  ∧ EngineInvocation.device ⟨"base", "cpu", some ""⟩
      = (if false then "cuda" else "cpu") :=
  tier_hotwords_fixed_device_per_file (some "") "base" [envCudaOff] false
    (by decide) ⟨"base", "cpu", some ""⟩ (by decide)

/-- C9 counterexample: when the sidecar file exists but contains only blank
lines, `read_hotwords` returns Python `None` — not a string, and in
particular not the empty comma-join of an empty phrase list — so the run's
hotwords value is not always a string as claimed. -/
theorem hotwords_none_when_file_blank :
    (read_hotwords (some ["  \n", ""])).1 = none
  ∧ (read_hotwords (some ["  \n", ""])).1 ≠ some (joinSep ", " ([] : List String))
  ∧ (read_hotwords (some ["  \n", ""])).1 ≠ some "" := by
  refine ⟨by decide, by decide, by decide⟩

/-- C9 (amended): when the sidecar file is absent the hotwords value is the
empty string and the warning is printed; when the file exists and has at least
one non-empty trimmed line the value is the `", "`-join of those lines (no
warning); but when the file exists with no non-empty trimmed line the value is
the `None` sentinel rather than a string (no warning). -/
theorem read_hotwords_characterization (file_lines : Option (List String)) :
    (file_lines = none → read_hotwords file_lines = (some "", true))
  ∧ (∀ raw, file_lines = some raw →
      (((raw.map pyStrip).filter (fun l => l ≠ "")) ≠ [] →
        read_hotwords file_lines
          = (some (joinSep ", " ((raw.map pyStrip).filter (fun l => l ≠ ""))), false))
      ∧ (((raw.map pyStrip).filter (fun l => l ≠ "")) = [] →
        read_hotwords file_lines = (none, false))) := by
  refine ⟨?_, ?_⟩
  · intro h; subst h; rfl
  · intro raw h; subst h
    refine ⟨?_, ?_⟩
    · intro hne
      simp only [read_hotwords]
      rw [if_neg hne]
    · intro he
      simp only [read_hotwords]
      rw [if_pos he]

theorem read_hotwords_witness :
    read_hotwords (some ["alpha\n", " ", "beta"])
      = (some (joinSep ", "
          (((["alpha\n", " ", "beta"] : List String).map pyStrip).filter
            (fun l => l ≠ ""))), false) :=
  ((read_hotwords_characterization (some ["alpha\n", " ", "beta"])).2
    ["alpha\n", " ", "beta"] rfl).1 (by decide)

theorem splitChar_ne_nil (c : Char) (l : List Char) : splitChar c l ≠ [] := by
  induction l with
  | nil => simp [splitChar]
  | cons x xs ih =>
    cases h : splitChar c xs with
    | nil => exact absurd h ih
    | cons y ys =>
      by_cases hx : x = c <;> simp [splitChar, h, hx]

theorem splitChar_no_sep (c : Char) (l : List Char) (h : c ∉ l) :
    splitChar c l = [l] := by
  induction l with
  | nil => rfl
  | cons x xs ih =>
    have hx : ¬x = c := fun e => h (by simp [e])
    have hxs : c ∉ xs := fun e => h (List.mem_cons_of_mem _ e)
    simp [splitChar, ih hxs, hx]

theorem splitChar_append (c : Char) (l1 l2 : List Char) (h : c ∉ l1) :
    splitChar c (l1 ++ c :: l2) = l1 :: splitChar c l2 := by
  induction l1 with
  | nil =>
    simp only [List.nil_append]
    cases hs : splitChar c l2 with
    | nil => exact absurd hs (splitChar_ne_nil c l2)
    | cons y ys => simp [splitChar, hs]
  | cons x xs ih =>
    have hx : ¬x = c := fun e => h (by simp [e])
    have hxs : c ∉ xs := fun e => h (List.mem_cons_of_mem _ e)
    simp only [List.cons_append, splitChar]
    simp only [if_neg hx]
    simp only [List.append_eq]
    rw [ih hxs]

theorem pad2_pyInt : ∀ n : Nat, n < 100 → pyInt (pad2 n).data = some n := by
  decide

theorem pad2_no_colon : ∀ n : Nat, n < 100 → ':' ∉ (pad2 n).data := by
  decide

/-- C2 counterexample: formatting 3600 seconds produces the `HH:MM:SS` string
`"01:00:00"`, and re-parsing it yields `0`, not `3600` — the parser unpacks
exactly two `:`-separated fields, so every three-field `HH:MM:SS` string falls
into its exception handler. -/
theorem format_parse_roundtrip_fails_at_3600 :
    format_seconds 3600 = "01:00:00"
  ∧ duration_to_seconds (format_seconds 3600) = 0
  ∧ (0 : Nat) ≠ 3600 := by
  refine ⟨by decide, by decide, by decide⟩

/-- C2 (amended): the round-trip `duration_to_seconds (format_seconds N) = N`
holds exactly on the `MM:SS` range of the formatter, i.e. for all
`0 ≤ N < 3600`; from one hour upwards the formatter switches to `HH:MM:SS`,
which the two-field parser maps to `0`. -/
theorem format_parse_roundtrip_below_one_hour (N : Nat) (h : N < 3600) :
    duration_to_seconds (format_seconds N) = N := by
  have hh : N / 3600 = 0 := Nat.div_eq_of_lt h
  have hm : N % 3600 = N := Nat.mod_eq_of_lt h
  have hmin : N / 60 < 100 := by omega
  have hsec : N % 60 < 100 := by omega
  have hfmt : format_seconds N = pad2 (N / 60) ++ ":" ++ pad2 (N % 60) := by
    simp [format_seconds, hh, hm]
  rw [hfmt]
  have hdata : (pad2 (N / 60) ++ ":" ++ pad2 (N % 60)).data
      = (pad2 (N / 60)).data ++ ':' :: (pad2 (N % 60)).data := by
    rw [str_data_append, str_data_append]
    have hcolon : (":" : String).data = [':'] := by decide
    rw [hcolon]
    simp
  unfold duration_to_seconds
  rw [hdata, splitChar_append ':' _ _ (pad2_no_colon _ hmin),
    splitChar_no_sep ':' _ (pad2_no_colon _ hsec)]
  simp only [pad2_pyInt _ hmin, pad2_pyInt _ hsec]
  omega

theorem format_parse_roundtrip_witness :
    duration_to_seconds (format_seconds 754) = 754 :=
  format_parse_roundtrip_below_one_hour 754 (by norm_num)

theorem dropWhile_head_not (p : Char → Bool) (l : List Char) (c : Char)
    (h : (l.dropWhile p).head? = some c) : p c = false := by
  induction l with
  | nil => simp at h
  | cons a t ih =>
    rw [List.dropWhile_cons] at h
    split at h
    · exact ih h
    · rename_i hpa
      simp at h
      subst h
      simpa using hpa

theorem dropWhile_eq_self_of_head (p : Char → Bool) (l : List Char)
    (h : ∀ c, l.head? = some c → p c = false) : l.dropWhile p = l := by
  cases l with
  | nil => rfl
  | cons a t =>
    rw [List.dropWhile_cons, if_neg]
    simp [h a rfl]

theorem getLast?_append_right (l m : List Char) (hm : m ≠ []) :
    (l ++ m).getLast? = m.getLast? := by
  rw [← List.head?_reverse (l ++ m), List.reverse_append, ← List.head?_reverse m]
  cases hr : m.reverse with
  | nil => exact absurd (by simpa using hr) hm
  | cons a t => simp [hr]

theorem getLast?_dropWhile (p : Char → Bool) (l : List Char)
    (h : l.dropWhile p ≠ []) : (l.dropWhile p).getLast? = l.getLast? := by
  induction l with
  | nil => simp at h
  | cons a t ih =>
    by_cases hp : p a = true
    · rw [List.dropWhile_cons, if_pos hp] at h ⊢
      rw [ih h]
      have ht : t ≠ [] := by
        intro e
        rw [e] at h
        simp at h
      cases t with
      | nil => exact absurd rfl ht
      | cons b t2 => exact (List.getLast?_cons_cons).symm
    · rw [List.dropWhile_cons, if_neg hp]

theorem stripL_head_not_space (l : List Char) (c : Char)
    (h : (stripL l).head? = some c) : pyIsSpace c = false := by
  unfold stripL at h
  rw [List.head?_reverse] at h
  have hne : (l.dropWhile pyIsSpace).reverse.dropWhile pyIsSpace ≠ [] := by
    intro e
    rw [e] at h
    simp at h
  rw [getLast?_dropWhile _ _ hne, List.getLast?_reverse] at h
  exact dropWhile_head_not _ _ _ h

theorem stripL_last_not_space (l : List Char) (c : Char)
    (h : (stripL l).getLast? = some c) : pyIsSpace c = false := by
  unfold stripL at h
  rw [List.getLast?_reverse] at h
  exact dropWhile_head_not _ _ _ h

theorem stripL_eq_self (l : List Char)
    (h1 : ∀ c, l.head? = some c → pyIsSpace c = false)
    (h2 : ∀ c, l.getLast? = some c → pyIsSpace c = false) : stripL l = l := by
  unfold stripL
  rw [dropWhile_eq_self_of_head _ _ h1]
  rw [dropWhile_eq_self_of_head _ _ ?_, List.reverse_reverse]
  intro c hc
  rw [List.head?_reverse] at hc
  exact h2 c hc

theorem joinSep_head (x : String) (xs : List String) (hx : x.data ≠ []) :
    (joinSep " " (x :: xs)).data.head? = x.data.head? := by
  cases xs with
  | nil => rfl
  | cons y ys =>
    simp only [joinSep]
    rw [str_data_append]
    cases hd : x.data with
    | nil => exact absurd hd hx
    | cons c cs => simp [hd]

theorem joinSep_data_ne_nil (x : String) (xs : List String) (hx : x.data ≠ []) :
    (joinSep " " (x :: xs)).data ≠ [] := by
  intro e
  have := joinSep_head x xs hx
  rw [e] at this
  cases hd : x.data with
  | nil => exact absurd hd hx
  | cons c cs => rw [hd] at this; simp at this

theorem joinSep_last_mem (xs : List String) :
    ∀ x : String, (∀ s ∈ x :: xs, s.data ≠ []) →
      ∃ s, s ∈ x :: xs
        ∧ (joinSep " " (x :: xs)).data.getLast? = s.data.getLast? := by
  induction xs with
  | nil => intro x _; exact ⟨x, by simp, rfl⟩
  | cons y ys ih =>
    intro x hall
    obtain ⟨s, hs, he⟩ := ih y (fun s hs => hall s (List.mem_cons_of_mem _ hs))
    refine ⟨s, List.mem_cons_of_mem _ hs, ?_⟩
    have hjoin_ne : (joinSep " " (y :: ys)).data ≠ [] :=
      joinSep_data_ne_nil y ys (hall y (by simp))
    simp only [joinSep]
    rw [str_data_append, getLast?_append_right _ _ hjoin_ne]
    exact he

/-- C8 counterexample: with the segment list `["", "a"]` the source's
transcript (which applies a final outer `.strip()` to the joined string) is
`"a"`, while the plain trimmed-and-space-joined string of the claim is
`" a"` — the two differ whenever some segment trims to the empty string. -/
theorem transcript_join_strip_cex :
    joinSegments ["", "a"] = "a"
  ∧ transcript_spec_join ["", "a"] = " a"
  ∧ joinSegments ["", "a"] ≠ transcript_spec_join ["", "a"] := by
  refine ⟨by decide, by decide, by decide⟩

/-- C8 (amended): when no segment trims to the empty string, the produced
transcript is exactly the segment texts in order, each trimmed, joined with a
single space (the outer `.strip()` is then a no-op); in general the transcript
is that join with surrounding whitespace removed.  In particular the spec's
scenario holds: segments `"hello "` and `" world"` yield `"hello world"`. -/
theorem transcript_join_matches_spec_when_segments_nonblank
    (segs : List String) (h : ∀ s ∈ segs, pyStrip s ≠ "") :
    joinSegments segs = transcript_spec_join segs
  ∧ joinSegments ["hello ", " world"] = "hello world" := by
  refine ⟨?_, by decide⟩
  unfold joinSegments transcript_spec_join
  cases hm : segs.map pyStrip with
  | nil => simp [joinSep, pyStrip, stripL]
  | cons x xs =>
    have hall : ∀ s ∈ x :: xs, s.data ≠ [] := by
      intro s hs
      rw [← hm] at hs
      obtain ⟨t, ht, rfl⟩ := List.mem_map.mp hs
      intro e
      exact h t ht (String.ext (by rw [e]))
    have hmem_strip : ∀ s ∈ x :: xs, ∃ t, pyStrip t = s := by
      intro s hs
      rw [← hm] at hs
      obtain ⟨t, ht, rfl⟩ := List.mem_map.mp hs
      exact ⟨t, rfl⟩
    have key : stripL (joinSep " " (x :: xs)).data = (joinSep " " (x :: xs)).data := by
      apply stripL_eq_self
      · intro c hc
        rw [joinSep_head x xs (hall x (by simp))] at hc
        obtain ⟨t, ht⟩ := hmem_strip x (by simp)
        rw [← ht] at hc
        exact stripL_head_not_space t.data c hc
      · intro c hc
        obtain ⟨s, hs, he⟩ := joinSep_last_mem xs x hall
        rw [he] at hc
        obtain ⟨t, ht⟩ := hmem_strip s hs
        rw [← ht] at hc
        exact stripL_last_not_space t.data c hc
    show String.mk (stripL (joinSep " " (x :: xs)).data) = joinSep " " (x :: xs)
    rw [key]

theorem transcript_join_witness :
    (joinSegments ["hello ", " world"] = transcript_spec_join ["hello ", " world"]
      ∧ joinSegments ["hello ", " world"] = "hello world")
  ∧ transcript_spec_join ["hello ", " world"] = "hello world" :=
  ⟨transcript_join_matches_spec_when_segments_nonblank ["hello ", " world"]
    (by decide), by decide⟩

theorem str_head_ne (a b t : String) (ha : a.data ≠ [])
    (h : a.data.head? ≠ t.data.head?) : a ++ b ≠ t := by
  intro e
  apply h
  have hd : a.data ++ b.data = t.data := by rw [← str_data_append, e]
  cases hda : a.data with
  | nil => exact absurd hda ha
  | cons c cs =>
    rw [hda] at hd
    rw [← hd]
    simp

theorem failHeader_notin_successChunks (i : SuccessInfo) :
    ∀ c ∈ successChunks i, c ≠ failHeader := by
  intro c hc
  simp only [successChunks, List.mem_cons, List.not_mem_nil, or_false] at hc
  rcases hc with rfl | rfl | rfl | rfl | rfl | rfl | rfl
  · exact str_head_ne _ _ _ (by decide) (by decide)
  · exact str_head_ne _ _ _ (by decide) (by decide)
  · exact str_head_ne _ _ _ (by decide) (by decide)
  · exact str_head_ne _ _ _ (by decide) (by decide)
  · exact str_head_ne _ _ _ (by decide) (by decide)
  · exact str_head_ne _ _ _ (by decide) (by decide)
  · decide

theorem failHeader_not_mem_report (hw : Option String)
    (processed : List SuccessInfo) (model_size : String) (total : ℚ)
    (si : SystemInfo) (lv : LibVersions) :
    failHeader ∉ write_info_file hw processed [] model_size total si lv := by
  intro hmem
  unfold write_info_file at hmem
  rw [if_pos rfl] at hmem
  rcases List.mem_append.mp hmem with h4 | htail
  · rcases List.mem_append.mp h4 with h3 | hstats
    · rcases List.mem_append.mp h3 with h2 | hfixed2
      · rcases List.mem_append.mp h2 with h1 | hnil
        · rcases List.mem_append.mp h1 with hfirst | hflat
          · exact absurd hfirst (by decide)
          · rcases List.mem_flatMap.mp hflat with ⟨i, hi, hc⟩
            exact failHeader_notin_successChunks i failHeader hc rfl
        · exact absurd hnil (List.not_mem_nil _)
      · simp only [List.mem_cons, List.not_mem_nil, or_false] at hfixed2
        rcases hfixed2 with h|h|h|h|h|h|h|h|h|h|h|h|h|h|h|h|h|h|h|h
        · exact absurd h (by decide)
        · exact str_head_ne _ _ _ (by decide) (by decide) h.symm
        · exact str_head_ne _ _ _ (by decide) (by decide) h.symm
        · exact absurd h (by decide)
        · exact absurd h (by decide)
        · exact str_head_ne _ _ _ (by decide) (by decide) h.symm
        · exact absurd h (by decide)
        · exact str_head_ne _ _ _ (by decide) (by decide) h.symm
        · exact str_head_ne _ _ _ (by decide) (by decide) h.symm
        · exact str_head_ne _ _ _ (by decide) (by decide) h.symm
        · exact str_head_ne _ _ _ (by decide) (by decide) h.symm
        · exact absurd h (by decide)
        · exact str_head_ne _ _ _ (by decide) (by decide) h.symm
        · exact str_head_ne _ _ _ (by decide) (by decide) h.symm
        · exact str_head_ne _ _ _ (by decide) (by decide) h.symm
        · exact str_head_ne _ _ _ (by decide) (by decide) h.symm
        · exact str_head_ne _ _ _ (by decide) (by decide) h.symm
        · exact str_head_ne _ _ _ (by decide) (by decide) h.symm
        · exact str_head_ne _ _ _ (by decide) (by decide) h.symm
        · exact absurd h (by decide)
    · by_cases hp : processed = []
      · rw [if_pos hp] at hstats
        exact absurd hstats (by decide)
      · rw [if_neg hp] at hstats
        simp only [List.mem_cons, List.not_mem_nil, or_false] at hstats
        rcases hstats with h|h|h
        · exact str_head_ne _ _ _ (by decide) (by decide) h.symm
        · exact str_head_ne _ _ _ (by decide) (by decide) h.symm
        · exact str_head_ne _ _ _ (by decide) (by decide) h.symm
  · simp only [List.mem_cons, List.not_mem_nil, or_false] at htail
    rcases htail with h|h|h|h|h
    · exact absurd h (by decide)
    · exact absurd h (by decide)
    · exact absurd h (by decide)
    · exact absurd h (by decide)
    · exact str_head_ne _ _ _ (by decide) (by decide) h.symm

/-- C3 counterexample: rendering the report with an empty failure list omits
the failures section header entirely (the source writes it under
`if failed_info:`), contradicting the claim that the header is always
present with a neutral empty-state message. -/
theorem failures_header_omitted_when_empty :
    failHeader ∉ write_info_file none [] [] "base" 0
      ⟨"linux", "3.12", false, 8⟩ ⟨"1.0", "u", "u", "u", "u", "u", "u"⟩ :=
  failHeader_not_mem_report none [] "base" 0
    ⟨"linux", "3.12", false, 8⟩ ⟨"1.0", "u", "u", "u", "u", "u", "u"⟩

/-- C3 (amended): the success section header is always rendered, and an empty
success list still yields the neutral line `Файлов успешно обработано: 0` in
the statistics section; the failures section header, however, is rendered
exactly when the failure list is non-empty — with zero failures the section
(header included) is omitted rather than shown with an empty-state message. -/
theorem report_sections_presence (hw : Option String)
    (processed : List SuccessInfo) (failed : List FailureInfo)
    (model_size : String) (total : ℚ) (si : SystemInfo) (lv : LibVersions) :
    successHeader ∈ write_info_file hw processed failed model_size total si lv
  ∧ (failed ≠ [] →
      failHeader ∈ write_info_file hw processed failed model_size total si lv)
  ∧ (failed = [] →
      failHeader ∉ write_info_file hw processed failed model_size total si lv)
  ∧ (processed = [] →
      zeroProcessedLine ∈ write_info_file hw processed failed model_size total si lv) := by
  refine ⟨?_, ?_, ?_, ?_⟩
  · unfold write_info_file
    simp
  · intro hne
    unfold write_info_file
    rw [if_neg hne]
    simp
  · intro he
    subst he
    exact failHeader_not_mem_report hw processed model_size total si lv
  · intro hp
    subst hp
    unfold write_info_file
    rw [if_pos rfl]
    simp

theorem report_sections_presence_witness :
    successHeader ∈ write_info_file none []
        [⟨"f.wav", "_input/f.wav", "boom"⟩] "base" 0
        ⟨"linux", "3.12", false, 8⟩ ⟨"1.0", "u", "u", "u", "u", "u", "u"⟩
  ∧ failHeader ∈ write_info_file none []
        [⟨"f.wav", "_input/f.wav", "boom"⟩] "base" 0
        ⟨"linux", "3.12", false, 8⟩ ⟨"1.0", "u", "u", "u", "u", "u", "u"⟩
  ∧ zeroProcessedLine ∈ write_info_file none []
        [⟨"f.wav", "_input/f.wav", "boom"⟩] "base" 0
        ⟨"linux", "3.12", false, 8⟩ ⟨"1.0", "u", "u", "u", "u", "u", "u"⟩ :=
  ⟨(report_sections_presence none [] [⟨"f.wav", "_input/f.wav", "boom"⟩]
      "base" 0 ⟨"linux", "3.12", false, 8⟩ ⟨"1.0", "u", "u", "u", "u", "u", "u"⟩).1,
   (report_sections_presence none [] [⟨"f.wav", "_input/f.wav", "boom"⟩]
      "base" 0 ⟨"linux", "3.12", false, 8⟩
      ⟨"1.0", "u", "u", "u", "u", "u", "u"⟩).2.1 (by simp),
   (report_sections_presence none [] [⟨"f.wav", "_input/f.wav", "boom"⟩]
      "base" 0 ⟨"linux", "3.12", false, 8⟩
      ⟨"1.0", "u", "u", "u", "u", "u", "u"⟩).2.2.2 rfl⟩
